import Mathlib

/-!
A shallow embedding of the decision-and-execution core of
`src/tronprofit_ai.py` (functions `calculate_rsi`, `calculate_ema`,
`calculate_macd`, `ai_decision_engine`, `log_trade`, `read_last_trade`,
`calculate_profit`, and the per-symbol body of `run_bot`), together with
theorems settling the frozen claims about it.

Modelling conventions:
* Python floats are idealised as exact rationals (`ℚ`); a float `NaN`
  (which arises from `Series.diff()` at index 0 and from incomplete
  rolling windows) is modelled as `none : Option ℚ`.  Float comparisons
  against `NaN` are `False` in Python, which `fltLt`/`fltGt` reproduce.
* The ledger file is modelled as its list of lines (each line a
  `List Char`, without the trailing newline that `log_trade` writes and
  `.strip()` removes).  An absent file and an empty file both make
  `read_last_trade` answer "no prior trade", so both are modelled by `[]`.
* A raised Python exception (`IndexError` from `last[2]`/`last[3]`,
  `ValueError` from `float(...)`) is modelled as `Except.error ()`.
* The module-level configuration globals `TRADE_QUANTITY` and
  `PERFORMANCE_FEE` are passed as explicit parameters, and the wall-clock
  timestamp of `log_trade` is an explicit argument.
-/

abbrev Chars := List Char

def chars (s : String) : Chars := s.data

/-! ### IndicatorEngine: `calculate_rsi`, `calculate_ema`, `calculate_macd` -/

/-- Model of `prices.diff()`: first entry is NaN, entry `i` (for `i ≥ 1`)
is `prices[i] - prices[i-1]`. -/
def diff (prices : List ℚ) : List (Option ℚ) :=
  none :: List.zipWith (fun a b => some (a - b)) prices.tail prices

/-- Model of `delta.clip(lower=0)` applied to the diff series
(line 48 of `tronprofit_ai.py`). -/
def gain (prices : List ℚ) : List (Option ℚ) :=
  (diff prices).map (Option.map (fun d => max d 0))

/-- Model of `-delta.clip(upper=0)` (line 49). -/
def loss (prices : List ℚ) : List (Option ℚ) :=
  (diff prices).map (Option.map (fun d => -(min d 0)))

/-- Sum of a list of NaN-able values; NaN-propagating. -/
def optSum : List (Option ℚ) → Option ℚ
  | [] => some 0
  | x :: xs =>
    match x, optSum xs with
    | some a, some s => some (a + s)
    | _, _ => none

/-- Model of `Series.rolling(window=w).mean()` with the default
`min_periods = w`: entry `i` is the mean of entries `i-w+1 .. i`, and is
NaN while the window is incomplete or contains a NaN. -/
def rollingMean (w : Nat) (xs : List (Option ℚ)) : List (Option ℚ) :=
  (List.range xs.length).map (fun i =>
    if w ≤ i + 1 then (optSum ((xs.drop (i + 1 - w)).take w)).map (fun s => s / (w : ℚ)) else none)

/-- Elementwise `100 - 100/(1 + avg_gain/avg_loss)` (lines 52-53) under
float semantics: with `avg_loss = 0` and `avg_gain > 0` the quotient is
`+inf`, so the expression evaluates to exactly `100.0`; with both zero it
is NaN; a NaN operand propagates.  (For `avg_gain < 0`, impossible for a
clipped gain series, the float result would also be `100`; the `none`
returned here is never reached on reachable inputs.) -/
def rsiCombine : Option ℚ → Option ℚ → Option ℚ
  | some g, some l =>
    if l = 0 then (if g = 0 then none else some 100)
    else some (100 - 100 / (1 + g / l))
  | _, _ => none

/-- Model of `calculate_rsi(prices, period=14)` (lines 46-54). -/
def calculate_rsi (prices : List ℚ) : List (Option ℚ) :=
  List.zipWith rsiCombine (rollingMean 14 (gain prices)) (rollingMean 14 (loss prices))

/-- Recursive core of `ewm(span, adjust=False).mean()`:
`e_i = a * p_i + (1 - a) * e_{i-1}`. -/
def emaAux (a : ℚ) (prev : ℚ) : List ℚ → List ℚ
  | [] => []
  | p :: ps =>
    let e := a * p + (1 - a) * prev
    e :: emaAux a e ps

/-- Model of `calculate_ema(prices, span)` (lines 56-57): exponential
moving average with smoothing factor `2/(span+1)`, seeded by the first
value. -/
def calculate_ema (prices : List ℚ) (span : ℚ) : List ℚ :=
  match prices with
  | [] => []
  | p :: ps => p :: emaAux (2 / (span + 1)) p ps

/-- Model of `calculate_macd(prices)` (lines 59-64): MACD line
`EMA(12) - EMA(26)` and its signal line `EMA(9)` of the MACD series. -/
def calculate_macd (prices : List ℚ) : List ℚ × List ℚ :=
  let ema12 := calculate_ema prices 12
  let ema26 := calculate_ema prices 26
  let macd_line := List.zipWith (fun a b => a - b) ema12 ema26
  (macd_line, calculate_ema macd_line 9)

/-! ### DecisionEngine: `ai_decision_engine` -/

/-- Float `<` with NaN semantics: any comparison involving NaN is false.
`none` also covers the value missing because the series is empty (where
Python would raise on `iloc[-1]` instead of comparing). -/
def fltLt : Option ℚ → Option ℚ → Bool
  | some a, some b => decide (a < b)
  | _, _ => false

/-- Float `>` with NaN semantics. -/
def fltGt : Option ℚ → Option ℚ → Bool
  | some a, some b => decide (a > b)
  | _, _ => false

/-- The decision rule of lines 80-84 of `tronprofit_ai.py`, as a pure
function of the latest indicator snapshot. -/
def decide_signal (rsi ema12 ema26 macd signal : Option ℚ) : String :=
  if fltLt rsi (some 30) && fltGt ema12 ema26 && fltGt macd signal then "BUY"
  else if fltGt rsi (some 70) && fltLt ema12 ema26 && fltLt macd signal then "SELL"
  else "HOLD"

/-- Model of `ai_decision_engine` (lines 66-84) as a function of the
close-price series fetched by `get_klines` (the network fetch itself is
an external collaborator).  `latest = df.iloc[-1]` is the last element of
each indicator series. -/
def ai_decision_engine (prices : List ℚ) : String :=
  decide_signal ((calculate_rsi prices).getLast?.getD none)
    ((calculate_ema prices 12).getLast?)
    ((calculate_ema prices 26).getLast?)
    ((calculate_macd prices).1.getLast?)
    ((calculate_macd prices).2.getLast?)

/-! ### TradeLedger: `log_trade`, `read_last_trade`, `calculate_profit` -/

/-- The line written by `log_trade` (line 111):
`f"{timestamp},{symbol},{trade_type},{price}"` (the trailing newline is
the line separator of the file model). -/
def toLine (ts symbol trade_type price : Chars) : Chars :=
  ts ++ [','] ++ symbol ++ [','] ++ trade_type ++ [','] ++ price

/-- Model of `log_trade(symbol, trade_type, price)` (lines 109-113):
append one comma-separated line to the ledger file.  The timestamp and
the formatted price are passed as the character strings interpolated by
the f-string. -/
def log_trade (ts symbol trade_type price : Chars) (file : List Chars) : List Chars :=
  file ++ [toLine ts symbol trade_type price]

/-- A TradeRecord as written to the ledger: the four character strings
that `log_trade` interpolates into a line. -/
structure TradeRecord where
  ts : Chars
  symbol : Chars
  side : Chars
  price : Chars
deriving DecidableEq

def log_trades (recs : List TradeRecord) (file : List Chars) : List Chars :=
  recs.foldl (fun f r => log_trade r.ts r.symbol r.side r.price f) file

def digitVal (c : Char) : Option ℕ :=
  if '0' ≤ c ∧ c ≤ '9' then some (c.toNat - '0'.toNat) else none

def parseDigitsAux (acc : ℕ) : Chars → Option ℕ
  | [] => some acc
  | c :: cs =>
    match digitVal c with
    | some d => parseDigitsAux (acc * 10 + d) cs
    | none => none

/-- Generic single-character splitter, matching Python `str.split(sep)`. -/
def splitOnChar (sep : Char) : Chars → List Chars
  | [] => [[]]
  | c :: cs =>
    if c = sep then [] :: splitOnChar sep cs
    else
      match splitOnChar sep cs with
      | [] => [[c]]
      | f :: rest => (c :: f) :: rest

def parseUnsigned (s : Chars) : Option ℚ :=
  match splitOnChar '.' s with
  | [a] =>
    if a = [] then none
    else (parseDigitsAux 0 a).map (fun n => (n : ℚ))
  | [a, b] =>
    if a = [] ∧ b = [] then none
    else
      match parseDigitsAux 0 a, parseDigitsAux 0 b with
      | some n, some f => some ((n : ℚ) + (f : ℚ) / ((10 : ℚ) ^ b.length))
      | _, _ => none
  | _ => none

/-- Model of Python `float(...)` on the plain decimal literals the ledger
holds: an optional `-`, digits, optionally one `.` and more digits (at
least one digit overall).  Other inputs (where `float` raises
`ValueError`, and exotic accepted spellings such as exponents or
underscores that the ledger never contains) yield `none`. -/
def parseFloat (s : Chars) : Option ℚ :=
  match s with
  | '-' :: rest => (parseUnsigned rest).map (fun q => -q)
  | _ => parseUnsigned s

/-- Model of Python `str.split(',')`, used by `read_last_trade`. -/
def splitOnComma : Chars → List Chars := splitOnChar ','

/-- Model of `read_last_trade(symbol)` (lines 115-123).  Lines are kept
when `symbol in line` holds, i.e. when the symbol is a contiguous
substring of the whole line (note: not an equality test on the symbol
field).  For the last matching line, `last[2]` is the side and
`float(last[3])` the price; a missing field (`IndexError`) or an
unparsable price (`ValueError`) is a raised exception, `Except.error ()`.
An absent ledger file and one with no matching line both give
`(None, None)`, modelled as `.ok none`. -/
def read_last_trade (symbol : Chars) (file : List Chars) : Except Unit (Option (Chars × ℚ)) :=
  let lines := file.filter (fun line => decide (symbol <:+: line))
  match lines.getLast? with
  | none => .ok none
  | some last =>
    let fields := splitOnComma last
    match fields.get? 2, fields.get? 3 with
    | some side, some priceStr =>
      match parseFloat priceStr with
      | some p => .ok (some (side, p))
      | none => .error ()
    | _, _ => .error ()

/-- Model of `calculate_profit(symbol, current_price)` (lines 125-135),
with the globals `TRADE_QUANTITY` and `PERFORMANCE_FEE` as the explicit
parameters `qty` and `fee_rate`.  An exception raised inside
`read_last_trade` propagates. -/
def calculate_profit (symbol : Chars) (current_price qty fee_rate : ℚ)
    (file : List Chars) : Except Unit (ℚ × ℚ) :=
  match read_last_trade symbol file with
  | .error e => .error e
  | .ok none => .ok (0, 0)
  | .ok (some (last_type, last_price)) =>
    if last_type = chars "BUY" then
      let profit := (current_price - last_price) * qty
      .ok (profit, profit * fee_rate)
    else if last_type = chars "SELL" then
      let profit := (last_price - current_price) * qty
      .ok (profit, profit * fee_rate)
    else .ok (0, 0)

/-! ### TradingLoop: the order-execution tail of one `run_bot` cycle -/

/-- The ledger effect of lines 149-160 of `run_bot` for one symbol, after
the decision and the current price are known: on BUY or SELL the order
response from `send_order` is received (as the opaque value `r`, returned
for printing/notification only) and a ledger line is appended; on any
other decision nothing is appended.  `price` is the f-string rendering of
`current_price`. -/
def run_cycle {α : Type} (decision : String) (r : α) (ts symbol price : Chars)
    (file : List Chars) : List Chars × Option α :=
  if decision = "BUY" then (log_trade ts symbol (chars "BUY") price file, some r)
  else if decision = "SELL" then (log_trade ts symbol (chars "SELL") price file, some r)
  else (file, none)

/-- Decidable equality for `Except`, needed to evaluate the model on
concrete ledgers. -/
instance exceptDecEq {ε α : Type} [DecidableEq ε] [DecidableEq α] :
    DecidableEq (Except ε α)
  | .ok a, .ok b => if h : a = b then isTrue (by rw [h]) else isFalse (by simp [h])
  | .error a, .error b => if h : a = b then isTrue (by rw [h]) else isFalse (by simp [h])
  | .ok _, .error _ => isFalse (by simp)
  | .error _, .ok _ => isFalse (by simp)

/-- A concrete close-price series: one rise to 110, a later fall to 90,
then fourteen non-decreasing samples (thirteen flat, one final small
rise).  Its trailing 14-delta window contains no decrease. -/
def noLossSellPrices : List ℚ :=
  [100, 110, 110, 110, 110, 110, 110, 110, 110, 110,
   90, 90, 90, 90, 90, 90, 90, 90, 90, 90, 90, 90, 90, 90, 9001/100]

/-! ### Helper lemmas -/

theorem log_trades_eq (recs : List TradeRecord) (file : List Chars) :
    log_trades recs file =
      file ++ recs.map (fun r => toLine r.ts r.symbol r.side r.price) := by
  induction recs generalizing file with
  | nil => simp [log_trades]
  | cons r rs ih =>
    show log_trades rs (log_trade r.ts r.symbol r.side r.price file) = _
    rw [ih]
    simp [log_trade]

theorem splitOnChar_no_sep (sep : Char) (a : Chars) (h : sep ∉ a) :
    splitOnChar sep a = [a] := by
  induction a with
  | nil => rfl
  | cons c cs ih =>
    rw [List.mem_cons, not_or] at h
    rw [splitOnChar, if_neg (fun hc => h.1 hc.symm), ih h.2]

theorem splitOnChar_append (sep : Char) (a rest : Chars) (h : sep ∉ a) :
    splitOnChar sep (a ++ sep :: rest) = a :: splitOnChar sep rest := by
  induction a with
  | nil => simp [splitOnChar]
  | cons c cs ih =>
    rw [List.mem_cons, not_or] at h
    rw [List.cons_append, splitOnChar, if_neg (fun hc => h.1 hc.symm), ih h.2]

theorem symbol_infix_toLine (ts sym side price : Chars) :
    sym <:+: toLine ts sym side price :=
  ⟨ts ++ [','], [','] ++ side ++ [','] ++ price, by simp [toLine]⟩

theorem sell_ne_buy : chars "SELL" ≠ chars "BUY" := by decide

/-! ### Claim theorems -/

/-- Claim C4: the decision is BUY iff `rsi < 30 ∧ ema_fast > ema_slow ∧
macd > macd_signal`, SELL iff `rsi > 70 ∧ ema_fast < ema_slow ∧
macd < macd_signal`, and HOLD in every other case; in particular the
snapshot `(25, 105, 100, 2, 1)` yields BUY. -/
theorem decide_signal_spec (r ef es m ms : ℚ) :
    (decide_signal (some r) (some ef) (some es) (some m) (some ms) = "BUY" ↔
      r < 30 ∧ ef > es ∧ m > ms) ∧
    (decide_signal (some r) (some ef) (some es) (some m) (some ms) = "SELL" ↔
      r > 70 ∧ ef < es ∧ m < ms) ∧
    (decide_signal (some r) (some ef) (some es) (some m) (some ms) = "HOLD" ↔
      ¬(r < 30 ∧ ef > es ∧ m > ms) ∧ ¬(r > 70 ∧ ef < es ∧ m < ms)) ∧
    decide_signal (some 25) (some 105) (some 100) (some 2) (some 1) = "BUY" := by
  simp only [decide_signal, fltLt, fltGt, Bool.and_eq_true, decide_eq_true_eq]
  refine ⟨?_, ?_, ?_, ?_⟩
  · split_ifs with h1 h2 <;> simp_all [and_assoc] <;> try (intros; linarith)
  · split_ifs with h1 h2 <;> simp_all [and_assoc] <;> try (intros; linarith)
  · split_ifs with h1 h2 <;> simp_all [and_assoc] <;> try (intros; linarith)
  · norm_num

/-- The BUY example of claim C4 obtained from `decide_signal_spec`. -/
theorem decide_signal_spec_witness :
    decide_signal (some 25) (some 105) (some 100) (some 2) (some 1) = "BUY" :=
  (decide_signal_spec 25 105 100 2 1).2.2.2

/-- Claim C5: profit and fee of `calculate_profit` as a function of the
last recorded trade: `(current - p) * qty` after a BUY at `p`,
`(p - current) * qty` after a SELL at `p`, `(0, 0)` with no prior trade,
and `fee = profit * fee_rate` in the trade cases; the claim's concrete
example is checked in the witness. -/
theorem calculate_profit_spec (S : Chars) (file : List Chars) (c p q fr : ℚ) :
    (read_last_trade S file = .ok (some (chars "BUY", p)) →
      calculate_profit S c q fr file = .ok ((c - p) * q, (c - p) * q * fr)) ∧
    (read_last_trade S file = .ok (some (chars "SELL", p)) →
      calculate_profit S c q fr file = .ok ((p - c) * q, (p - c) * q * fr)) ∧
    (read_last_trade S file = .ok none →
      calculate_profit S c q fr file = .ok (0, 0)) := by
  refine ⟨fun h => ?_, fun h => ?_, fun h => ?_⟩
  · simp [calculate_profit, h]
  · simp [calculate_profit, h, sell_ne_buy]
  · simp [calculate_profit, h]

unseal Rat.mul Rat.inv Rat.add Rat.sub in
/-- Witness for claim C5, also checking its concrete example: last trade
BUY at 100, current price 110, quantity 0.001, fee rate 0.20 gives
profit 0.01 and fee 0.002. -/
theorem calculate_profit_spec_witness :
    calculate_profit (chars "BTCUSDT") 110 (1/1000) (1/5)
        [toLine (chars "t") (chars "BTCUSDT") (chars "BUY") (chars "100")] =
      .ok ((110 - 100) * (1/1000), (110 - 100) * (1/1000) * (1/5)) ∧
    ((110 : ℚ) - 100) * (1/1000) = 1/100 ∧
    ((110 : ℚ) - 100) * (1/1000) * (1/5) = 1/500 :=
  ⟨(calculate_profit_spec (chars "BTCUSDT")
      [toLine (chars "t") (chars "BTCUSDT") (chars "BUY") (chars "100")]
      110 100 (1/1000) (1/5)).1 (by decide), by decide, by decide⟩

/-- Claim C6: whenever the decision is BUY or SELL and `send_order`
returns a response, a ledger line for the symbol is appended, and the
appended ledger does not depend on the content of the opaque response. -/
theorem run_cycle_appends_unconditionally {α : Type} (d : String) (r : α)
    (ts sym price : Chars) (file : List Chars) (h : d = "BUY" ∨ d = "SELL") :
    (run_cycle d r ts sym price file).1 = file ++ [toLine ts sym (chars d) price] ∧
    ∀ (r₂ : α), (run_cycle d r₂ ts sym price file).1 = (run_cycle d r ts sym price file).1 := by
  rcases h with h | h <;> subst h <;>
    exact ⟨by simp [run_cycle, log_trade], fun r₂ => by simp [run_cycle]⟩

/-- Witness for claim C6 at a concrete BUY cycle. -/
theorem run_cycle_appends_unconditionally_witness :
    (run_cycle "BUY" (0 : ℕ) (chars "t") (chars "BTCUSDT") (chars "100") []).1 =
      [] ++ [toLine (chars "t") (chars "BTCUSDT") (chars "BUY") (chars "100")] :=
  (run_cycle_appends_unconditionally "BUY" 0 (chars "t") (chars "BTCUSDT")
    (chars "100") [] (Or.inl rfl)).1

/-- Claim C8: profit computed after a BUY at `p` with current price `c`
equals profit computed after a SELL at `c` with current price `p`
(the entire results agree, fee included); and a BUY followed by a rise
of `d` yields the same positive profit as a SELL followed by a fall of
`d`. -/
theorem profit_side_flip_symmetry (S₁ S₂ : Chars) (f₁ f₂ : List Chars) (p c q fr d : ℚ)
    (h₁ : read_last_trade S₁ f₁ = .ok (some (chars "BUY", p)))
    (h₂ : read_last_trade S₂ f₂ = .ok (some (chars "SELL", c))) :
    calculate_profit S₁ c q fr f₁ = calculate_profit S₂ p q fr f₂ ∧
    (0 < d → 0 < q →
      calculate_profit S₁ (p + d) q fr f₁ = .ok (d * q, d * q * fr) ∧
      calculate_profit S₂ (c - d) q fr f₂ = .ok (d * q, d * q * fr) ∧
      0 < d * q) := by
  refine ⟨?_, fun hd hq => ⟨?_, ?_, mul_pos hd hq⟩⟩
  · simp [calculate_profit, h₁, h₂, sell_ne_buy]
  · have he : p + d - p = d := by ring
    simp [calculate_profit, h₁, he]
  · have he : c - (c - d) = d := by ring
    simp [calculate_profit, h₂, sell_ne_buy, he]

unseal Rat.mul Rat.inv Rat.add Rat.sub in
/-- Witness for claim C8 at concrete one-line ledgers. -/
theorem profit_side_flip_symmetry_witness :
    calculate_profit (chars "A") 110 (1/1000) (1/5)
        [toLine (chars "t") (chars "A") (chars "BUY") (chars "100")] =
      calculate_profit (chars "B") 100 (1/1000) (1/5)
        [toLine (chars "t") (chars "B") (chars "SELL") (chars "110")] ∧
    (0 < (7 : ℚ) → 0 < (1/1000 : ℚ) →
      calculate_profit (chars "A") (100 + 7) (1/1000) (1/5)
          [toLine (chars "t") (chars "A") (chars "BUY") (chars "100")] =
        .ok (7 * (1/1000), 7 * (1/1000) * (1/5)) ∧
      calculate_profit (chars "B") (110 - 7) (1/1000) (1/5)
          [toLine (chars "t") (chars "B") (chars "SELL") (chars "110")] =
        .ok (7 * (1/1000), 7 * (1/1000) * (1/5)) ∧
      0 < (7 : ℚ) * (1/1000)) :=
  profit_side_flip_symmetry (chars "A") (chars "B")
    [toLine (chars "t") (chars "A") (chars "BUY") (chars "100")]
    [toLine (chars "t") (chars "B") (chars "SELL") (chars "110")]
    100 110 (1/1000) (1/5) 7 (by decide) (by decide)

/-- Claim C9: with a BUY or SELL last trade, the fee is exactly
`profit * fee_rate`, with no flooring at zero: for a positive rate the
fee is negative exactly when the profit is. -/
theorem fee_proportional_no_floor (S : Chars) (file : List Chars) (c p q fr : ℚ)
    (side : Chars) (h : read_last_trade S file = .ok (some (side, p)))
    (hside : side = chars "BUY" ∨ side = chars "SELL") :
    ∃ pr, calculate_profit S c q fr file = .ok (pr, pr * fr) ∧
      (0 < fr → (pr * fr < 0 ↔ pr < 0)) := by
  rcases hside with hs | hs <;> subst hs
  · exact ⟨(c - p) * q, by simp [calculate_profit, h], fun hfr => by
      constructor <;> intro <;> nlinarith⟩
  · exact ⟨(p - c) * q, by simp [calculate_profit, h, sell_ne_buy], fun hfr => by
      constructor <;> intro <;> nlinarith⟩

unseal Rat.mul Rat.inv Rat.add Rat.sub in
/-- Witness for claim C9: a losing BUY position at a positive fee rate. -/
theorem fee_proportional_no_floor_witness :
    ∃ pr, calculate_profit (chars "A") 90 (1/1000) (1/5)
        [toLine (chars "t") (chars "A") (chars "BUY") (chars "100")] = .ok (pr, pr * (1/5)) ∧
      (0 < (1/5 : ℚ) → (pr * (1/5) < 0 ↔ pr < 0)) :=
  fee_proportional_no_floor (chars "A")
    [toLine (chars "t") (chars "A") (chars "BUY") (chars "100")]
    90 100 (1/1000) (1/5) (chars "BUY") (by decide) (Or.inl rfl)

unseal Rat.mul Rat.inv Rat.add Rat.sub in
/-- Counterexample to claim C10 as stated: a matching ledger line whose
comma-split has the non-BUY/SELL value `XXX` at the side index (2) but no
price field at index 3, on which `calculate_profit` raises
(`IndexError` on `last[3]`) instead of returning `(0, 0)`. -/
theorem calculate_profit_malformed_line_raises :
    (splitOnComma (chars "t,BTCUSDT,XXX")).get? 2 = some (chars "XXX") ∧
    chars "XXX" ≠ chars "BUY" ∧ chars "XXX" ≠ chars "SELL" ∧
    calculate_profit (chars "BTCUSDT") 100 (1/1000) (1/5) [chars "t,BTCUSDT,XXX"] =
      .error () := by decide

/-- Claim C10 as amended: when the last matching line does yield a parsed
side and price (at least four comma-separated fields, float-parsable
price field) and the side is neither BUY nor SELL, `calculate_profit`
returns `(0, 0)` without raising, indistinguishable from the
no-prior-trade case; but a matching line short of fields or with an
unparsable price makes it raise instead. -/
theorem calculate_profit_unknown_side (S : Chars) (file : List Chars) (c q fr : ℚ)
    (side : Chars) (p : ℚ) (h : read_last_trade S file = .ok (some (side, p)))
    (h1 : side ≠ chars "BUY") (h2 : side ≠ chars "SELL") :
    calculate_profit S c q fr file = .ok (0, 0) := by
  simp [calculate_profit, h, h1, h2]

unseal Rat.mul Rat.inv Rat.add Rat.sub in
/-- Witness for the amended claim C10: a well-formed line with side
`HODL`. -/
theorem calculate_profit_unknown_side_witness :
    calculate_profit (chars "BTCUSDT") 100 (1/1000) (1/5)
        [toLine (chars "t") (chars "BTCUSDT") (chars "HODL") (chars "50")] = .ok (0, 0) :=
  calculate_profit_unknown_side (chars "BTCUSDT")
    [toLine (chars "t") (chars "BTCUSDT") (chars "HODL") (chars "50")]
    100 (1/1000) (1/5) (chars "HODL") 50 (by decide) (by decide) (by decide)

unseal Rat.mul Rat.inv Rat.add Rat.sub in
/-- Counterexample to claim C1 as stated: `ETHUSDT` is a different symbol
from `ETH`, yet appending a single `ETHUSDT` trade line changes
`read_last_trade` for `ETH` from "no prior trade" to that line's side and
price, because the filter `symbol in line` is substring containment, not
a symbol-field comparison. -/
theorem read_last_trade_substring_leak :
    chars "ETH" ≠ chars "ETHUSDT" ∧
    read_last_trade (chars "ETH") [] = .ok none ∧
    read_last_trade (chars "ETH")
        [toLine (chars "2024-01-01T00:00:00") (chars "ETHUSDT") (chars "BUY") (chars "2000")] =
      .ok (some (chars "BUY", 2000)) := by decide

/-- Claim C1 as amended: `read_last_trade S` is unchanged by appending
any line that does not contain `S` as a substring (in particular any
record of another symbol whose rendered line avoids `S`); the claim's
concrete example holds: with only an `ETHUSDT` record in the ledger,
`read_last_trade "BTCUSDT"` reports no prior trade.  Unqualified
cross-symbol independence fails (see the counterexample):
the filter is substring containment on the whole line. -/
theorem read_last_trade_other_symbol_invariant (S : Chars) (file : List Chars)
    (line : Chars) (h : ¬ S <:+: line) :
    read_last_trade S (file ++ [line]) = read_last_trade S file ∧
    read_last_trade (chars "BTCUSDT")
        [toLine (chars "2024-01-01T00:00:00") (chars "ETHUSDT") (chars "BUY") (chars "2000")] =
      .ok none := by
  constructor
  · simp [read_last_trade, List.filter_append, h]
  · decide

/-- Witness for the amended claim C1: appending a `DOGEUSDT` line leaves
the `BTCUSDT` answer unchanged. -/
theorem read_last_trade_other_symbol_invariant_witness :
    read_last_trade (chars "BTCUSDT")
        ([toLine (chars "t1") (chars "BTCUSDT") (chars "BUY") (chars "100")] ++
          [toLine (chars "t2") (chars "DOGEUSDT") (chars "SELL") (chars "3")]) =
      read_last_trade (chars "BTCUSDT")
        [toLine (chars "t1") (chars "BTCUSDT") (chars "BUY") (chars "100")] :=
  (read_last_trade_other_symbol_invariant (chars "BTCUSDT")
    [toLine (chars "t1") (chars "BTCUSDT") (chars "BUY") (chars "100")]
    (toLine (chars "t2") (chars "DOGEUSDT") (chars "SELL") (chars "3")) (by decide)).1

/-- Claim C7: appending N ≥ 1 TradeRecords for symbol S (comma-free
fields, float-parsable price, as every genuine TradeRecord has) to any
ledger and then querying `read_last_trade S` returns exactly the last
appended record's side and (parsed) price. -/
theorem ledger_roundtrip (file : List Chars) (S : Chars) (recs : List TradeRecord)
    (h : recs ≠ []) (hS : ∀ r ∈ recs, r.symbol = S)
    (hts : ',' ∉ (recs.getLast h).ts) (hsy : ',' ∉ S) (hsd : ',' ∉ (recs.getLast h).side)
    (hpr : ',' ∉ (recs.getLast h).price)
    (v : ℚ) (hv : parseFloat (recs.getLast h).price = some v) :
    read_last_trade S (log_trades recs file) = .ok (some ((recs.getLast h).side, v)) := by
  set r := recs.getLast h with hr
  have hrS : r.symbol = S := hS r (List.getLast_mem h)
  have hsplit : log_trades recs file =
      (file ++ recs.dropLast.map (fun t => toLine t.ts t.symbol t.side t.price)) ++
        [toLine r.ts S r.side r.price] := by
    rw [log_trades_eq]
    conv_lhs => rw [← List.dropLast_append_getLast h]
    rw [List.map_append, ← List.append_assoc, ← hr]
    simp [hrS]
  rw [hsplit]
  have hmem : decide (S <:+: toLine r.ts S r.side r.price) = true :=
    decide_eq_true (symbol_infix_toLine r.ts S r.side r.price)
  have hline : toLine r.ts S r.side r.price =
      r.ts ++ ',' :: (S ++ ',' :: (r.side ++ ',' :: r.price)) := by
    simp [toLine]
  simp only [read_last_trade, List.filter_append, List.filter_cons, List.filter_nil, hmem,
    if_true, List.getLast?_concat]
  rw [hline]
  show (match splitOnComma (r.ts ++ ',' :: (S ++ ',' :: (r.side ++ ',' :: r.price))) with
        | fields =>
          match fields.get? 2, fields.get? 3 with
          | some side, some priceStr =>
            match parseFloat priceStr with
            | some p => Except.ok (some (side, p))
            | none => Except.error ()
          | _, _ => Except.error ()) = Except.ok (some (r.side, v))
  show (match splitOnChar ',' (r.ts ++ ',' :: (S ++ ',' :: (r.side ++ ',' :: r.price))) with
        | fields =>
          match fields.get? 2, fields.get? 3 with
          | some side, some priceStr =>
            match parseFloat priceStr with
            | some p => Except.ok (some (side, p))
            | none => Except.error ()
          | _, _ => Except.error ()) = Except.ok (some (r.side, v))
  rw [splitOnChar_append _ _ _ hts, splitOnChar_append _ _ _ hsy,
    splitOnChar_append _ _ _ hsd, splitOnChar_no_sep _ _ hpr]
  simp [hv]

unseal Rat.mul Rat.inv Rat.add Rat.sub in
/-- Witness for claim C7: two BTCUSDT records; the second one is
returned. -/
theorem ledger_roundtrip_witness :
    read_last_trade (chars "BTCUSDT")
        (log_trades
          [⟨chars "t1", chars "BTCUSDT", chars "BUY", chars "100"⟩,
           ⟨chars "t2", chars "BTCUSDT", chars "SELL", chars "110.5"⟩] []) =
      .ok (some (chars "SELL", 221/2)) :=
  ledger_roundtrip []
    (chars "BTCUSDT")
    [⟨chars "t1", chars "BTCUSDT", chars "BUY", chars "100"⟩,
     ⟨chars "t2", chars "BTCUSDT", chars "SELL", chars "110.5"⟩]
    (by decide) (by decide) (by decide) (by decide) (by decide) (by decide)
    (221/2) (by decide)

theorem diff_length (prices : List ℚ) (h : prices ≠ []) :
    (diff prices).length = prices.length := by
  cases prices with
  | nil => simp at h
  | cons p ps => simp [diff, List.length_zipWith]

theorem gain_length (prices : List ℚ) (h : prices ≠ []) :
    (gain prices).length = prices.length := by
  simp [gain, diff_length prices h]

theorem loss_length (prices : List ℚ) (h : prices ≠ []) :
    (loss prices).length = prices.length := by
  simp [loss, diff_length prices h]

theorem rollingMean_length (w : Nat) (xs : List (Option ℚ)) :
    (rollingMean w xs).length = xs.length := by
  simp [rollingMean]

theorem getLast?_zipWith {α β γ : Type} (f : α → β → γ) :
    ∀ (l₁ : List α) (l₂ : List β), l₁.length = l₂.length →
      (List.zipWith f l₁ l₂).getLast? =
        (match l₁.getLast?, l₂.getLast? with
         | some a, some b => some (f a b)
         | _, _ => none) := by
  intro l₁
  induction l₁ with
  | nil => intro l₂ h; cases l₂ <;> simp_all
  | cons a as ih =>
    intro l₂ h
    cases l₂ with
    | nil => simp at h
    | cons b bs =>
      cases as with
      | nil =>
        cases bs with
        | nil => simp
        | cons b' bs' => simp at h
      | cons a' as' =>
        cases bs with
        | nil => simp at h
        | cons b' bs' =>
          have hz : List.zipWith f (a' :: as') (b' :: bs') = f a' b' :: List.zipWith f as' bs' := rfl
          rw [List.zipWith_cons_cons, hz, List.getLast?_cons_cons, ← hz,
            ih (b' :: bs') (by simpa using h), List.getLast?_cons_cons, List.getLast?_cons_cons]

theorem rollingMean_getLast? (w : Nat) (xs : List (Option ℚ)) (h : xs ≠ []) :
    (rollingMean w xs).getLast? =
      some (if w ≤ xs.length
        then (optSum ((xs.drop (xs.length - w)).take w)).map (fun s => s / (w : ℚ))
        else none) := by
  obtain ⟨n, hn⟩ : ∃ n, xs.length = n + 1 := ⟨xs.length - 1, by cases xs <;> simp_all⟩
  rw [rollingMean, hn, List.range_succ, List.map_append]
  simp [List.getLast?_concat, hn]

theorem gain_cons (prices : List ℚ) :
    gain prices = none :: ((List.zipWith (fun a b => some (a - b)) prices.tail prices).map
      (Option.map (fun d => max d 0))) := by
  simp [gain, diff]

theorem optSum_none_head (t : List (Option ℚ)) : optSum (none :: t) = none := rfl

theorem rsi_last_nan_short (prices : List ℚ) (h0 : prices ≠ []) (h : prices.length ≤ 14) :
    (calculate_rsi prices).getLast?.getD none = none := by
  have hG : (rollingMean 14 (gain prices)).length = (rollingMean 14 (loss prices)).length := by
    rw [rollingMean_length, rollingMean_length, gain_length prices h0, loss_length prices h0]
  have hgne : gain prices ≠ [] := by
    intro hx
    have := gain_length prices h0
    rw [hx] at this
    cases prices <;> simp_all
  rw [calculate_rsi, getLast?_zipWith rsiCombine _ _ hG,
    rollingMean_getLast? 14 (gain prices) hgne]
  have hGlast : (if 14 ≤ (gain prices).length
      then (optSum (((gain prices).drop ((gain prices).length - 14)).take 14)).map
        (fun s => s / ((14 : ℕ) : ℚ))
      else none) = none := by
    by_cases hc : 14 ≤ (gain prices).length
    · rw [if_pos hc]
      have hlen : (gain prices).length = 14 := by
        rw [gain_length prices h0] at hc ⊢
        omega
      rw [hlen, Nat.sub_self, List.drop_zero, ← hlen, List.take_length, gain_cons,
        optSum_none_head]
      rfl
    · rw [if_neg hc]
  rw [hGlast]
  cases (rollingMean 14 (loss prices)).getLast? <;> rfl

theorem decide_signal_nan_rsi (e1 e2 m s : Option ℚ) :
    decide_signal none e1 e2 m s = "HOLD" := by
  simp [decide_signal, fltLt, fltGt]

/-- Claim C3: for every nonempty close-price series shorter than the
warm-up window (fewer than 14 + 1 samples), the rolling RSI at the latest
index is NaN, so the decision is HOLD, never BUY and never SELL.
(An empty series makes the Python code raise on `df.iloc[-1]` before any
decision, so nonemptiness is the claim's domain.) -/
theorem short_series_decision_hold (prices : List ℚ) (h0 : prices ≠ []) (h : prices.length < 15) :
    ai_decision_engine prices = "HOLD" := by
  have hr := rsi_last_nan_short prices h0 (by omega)
  rw [ai_decision_engine, hr]
  exact decide_signal_nan_rsi _ _ _ _

/-- Witness for claim C3 at a three-sample series. -/
theorem short_series_decision_hold_witness : ai_decision_engine [1, 2, 3] = "HOLD" :=
  short_series_decision_hold [1, 2, 3] (by decide) (by decide)

theorem decide_signal_rsi_ge30_ne_buy (rsi e1 e2 m s : Option ℚ)
    (hr : fltLt rsi (some 30) = false) :
    decide_signal rsi e1 e2 m s ≠ "BUY" := by
  simp only [decide_signal, hr, Bool.false_and]
  split_ifs <;> simp_all

/-- Claim C2 as amended: when the trailing 14-sample window has zero
average loss, the RSI computation yields a value rather than raising —
NaN when the average gain is also zero, and exactly 100 otherwise — and
that value can never contribute to a BUY decision.  It is not, however,
excluded from triggering a signal: RSI = 100 satisfies `rsi > 70`, and
with suitable EMA/MACD values the engine returns SELL (see the
counterexample). -/
theorem rsi_avg_loss_zero_no_buy (prices : List ℚ) (h0 : prices ≠ [])
    (hloss : (rollingMean 14 (loss prices)).getLast?.getD none = some 0) :
    ((calculate_rsi prices).getLast?.getD none = none ∨
     (calculate_rsi prices).getLast?.getD none = some 100) ∧
    ai_decision_engine prices ≠ "BUY" := by
  have hL : (rollingMean 14 (loss prices)).getLast? = some (some 0) := by
    cases hx : (rollingMean 14 (loss prices)).getLast? with
    | none => rw [hx] at hloss; simp at hloss
    | some x => rw [hx] at hloss; simp at hloss; rw [hloss]
  have hG : (rollingMean 14 (gain prices)).length = (rollingMean 14 (loss prices)).length := by
    rw [rollingMean_length, rollingMean_length, gain_length prices h0, loss_length prices h0]
  have hGne : rollingMean 14 (gain prices) ≠ [] := by
    intro hx
    have hLne : rollingMean 14 (loss prices) ≠ [] := by
      intro hy
      rw [hy] at hL
      simp at hL
    rw [hx] at hG
    exact hLne (List.eq_nil_of_length_eq_zero (hG.symm.trans rfl))
  obtain ⟨g, hg⟩ := Option.isSome_iff_exists.mp (List.getLast?_isSome.mpr hGne)
  have hrsi : (calculate_rsi prices).getLast? = some (rsiCombine g (some 0)) := by
    rw [calculate_rsi, getLast?_zipWith rsiCombine _ _ hG, hg, hL]
  have key : rsiCombine g (some 0) = none ∨ rsiCombine g (some 0) = some 100 := by
    cases g with
    | none => exact Or.inl rfl
    | some gv =>
      by_cases hg0 : gv = 0
      · exact Or.inl (by simp [rsiCombine, hg0])
      · exact Or.inr (by simp [rsiCombine, hg0])
  constructor
  · rw [hrsi]
    simpa using key
  · rw [ai_decision_engine, hrsi]
    apply decide_signal_rsi_ge30_ne_buy
    rcases key with hk | hk <;> rw [hk]
    · rfl
    · norm_num [fltLt]

unseal Rat.mul Rat.inv Rat.add Rat.sub in
/-- Witness for the amended claim C2: a flat 15-sample series. -/
theorem rsi_avg_loss_zero_no_buy_witness :
    ((calculate_rsi [100, 100, 100, 100, 100, 100, 100, 100, 100, 100, 100, 100, 100, 100, 100]).getLast?.getD none = none ∨
     (calculate_rsi [100, 100, 100, 100, 100, 100, 100, 100, 100, 100, 100, 100, 100, 100, 100]).getLast?.getD none = some 100) ∧
    ai_decision_engine [100, 100, 100, 100, 100, 100, 100, 100, 100, 100, 100, 100, 100, 100, 100] ≠ "BUY" :=
  rsi_avg_loss_zero_no_buy [100, 100, 100, 100, 100, 100, 100, 100, 100, 100, 100, 100, 100, 100, 100]
    (by decide) (by decide)

set_option maxRecDepth 100000 in
unseal Rat.mul Rat.inv Rat.add Rat.sub in
/-- Counterexample to claim C2 as stated: a series whose trailing
14-delta window contains no decrease (zero average loss), yet whose
saturated RSI of exactly 100 combines with the falling EMAs and MACD
into a SELL decision from `ai_decision_engine`. -/
theorem rsi_no_loss_sell_signal :
    ((rollingMean 14 (loss noLossSellPrices)).getLast?.getD none = some 0) ∧
    ((calculate_rsi noLossSellPrices).getLast?.getD none = some 100) ∧
    ai_decision_engine noLossSellPrices = "SELL" := by decide
